import Mathlib

/-!
Verification of the PlantDexPro backend decision layer.

The repository's core decision components are embedded shallowly:
the image-resolution chain and the identify-plant handler come from
src/server.js and the server variants in src/unnamed; the ensemble
voter, confidence scorer, hallucination detector, nutrition validator
and thumbnail cache are exercised only by their Jest tests under src,
so those are modelled from the specification and checked against the
test vectors recorded in the tests.
-/

/-! ## Image resolution chain -/

/-- JavaScript `a || b` over nullable string values: an absent value and
the empty string are both falsy, anything else short-circuits. -/
def jsOr (a b : Option String) : Option String :=
  match a with
  | some s => if s = "" then b else some s
  | none => b

/-- Embeds `finalImage` from src/unnamed/part_001 line 545:
`wikiImage || youtubeImage || plantData.apiImage`. -/
def finalImage (wikiImage youtubeImage apiImage : Option String) : Option String :=
  jsOr wikiImage (jsOr youtubeImage apiImage)

/-- Embeds `finalDisplayImage` from src/unnamed/part_001 line 140:
`wikiImage || plantData.apiImage`. -/
def finalDisplayImage (wikiImage apiImage : Option String) : Option String :=
  jsOr wikiImage apiImage

/-- Modelled from the spec: `resolveImage` (spec 4.4) selects the first
non-null layer in the fixed order wiki, youtube thumbnail, provider API
image, user upload. The first three layers are the server-side chain
`finalImage`; the fourth, caller-side user-upload fallback lives in the
frontend and is absent from src. -/
def resolveImage (wiki youtube apiProvided userUpload : Option String) : Option String :=
  match wiki with
  | some u => some u
  | none =>
    match youtube with
    | some u => some u
    | none =>
      match apiProvided with
      | some u => some u
      | none => userUpload

/-! ## Confidence scorer (modelled from the spec) -/

/-- Signal origin for confidence adjustment (spec data model). -/
inductive Modality where
  | vision : Modality
  | llm : Modality
deriving DecidableEq

/-- Modelled from the spec: base score is `round(visionScore * 100)`;
JavaScript `Math.round` is floor of the argument plus one half. -/
def baseScore (visionScore : ℚ) : ℤ := ⌊visionScore * 100 + 1/2⌋

/-- Modelled from the spec: modality-aware adjustment — vision modality
grants +5 when consistency is at least 0.9, llm modality is penalised
-20 when consistency is below 0.5, otherwise no adjustment. -/
def adjustment (consistencyScore : ℚ) : Modality → ℤ
  | Modality.vision => if 9/10 ≤ consistencyScore then 5 else 0
  | Modality.llm => if consistencyScore < 1/2 then -20 else 0

/-- Modelled from the spec: `calculateScore` of aiConfidenceService
(exercised by src/unnamed/part_003 lines 28-35); the implementation file
is not under src. Base plus adjustment, clamped to [0,100]. -/
def calculateScore (visionScore consistencyScore : ℚ) (modality : Modality) : ℤ :=
  max 0 (min 100 (baseScore visionScore + adjustment consistencyScore modality))

/-! ## Hallucination detector (modelled from the spec) -/

/-- Checks that the pattern is an initial segment of the text. -/
def beginsWith : List Char → List Char → Bool
  | [], _ => true
  | _ :: _, [] => false
  | p :: ps, c :: cs => p == c && beginsWith ps cs

/-- Checks that the pattern occurs contiguously somewhere in the text. -/
def occursIn (pat : List Char) : List Char → Bool
  | [] => pat.isEmpty
  | c :: cs => beginsWith pat (c :: cs) || occursIn pat cs

/-- Lower-cases a string into its character list. -/
def lowerStr (s : String) : List Char := s.data.map Char.toLower

/-- Case-insensitive substring test used for pattern matching. -/
def containsCI (pat s : String) : Bool := occursIn (lowerStr pat) (lowerStr s)

/-- Modelled from the spec: the maintained list of generic filler phrases
typical of templated LLM output (spec 4.2 and the validator examples of
spec 4.3); the implementation file is not under src. -/
def hallucinationPhrases : List String :=
  ["rich in vitamins", "various minerals", "good for health",
   "consult doctor", "consult a professional"]

/-- Modelled from the spec: `detectHallucination` of aiConfidenceService
(exercised by src/unnamed/part_003 lines 38-41) — true exactly when some
phrase of the maintained list matches the text case-insensitively. -/
def detectHallucination (text : String) : Bool :=
  hallucinationPhrases.any (fun p => containsCI p text)

/-! ## Ensemble voter (modelled from the spec) -/

/-- Identification candidate; the voter consults only the name field
(the provider fields probability, source are not read by it). -/
structure IdentificationCandidate where
  name : String
deriving DecidableEq

/-- Consensus label plus agreement ratio (spec data model). -/
structure EnsembleVote where
  consensus : String
  agreement : ℚ
deriving DecidableEq

/-- Names of a candidate list, in order. -/
def candidateNames (l : List IdentificationCandidate) : List String :=
  l.map (fun c => c.name)

/-- Keeps the incumbent unless the challenger has a strictly larger
tally, which realises the first-encountered tie-break. -/
def pickMax (f : String → Nat) (best n : String) : String :=
  if f n > f best then n else best

/-- Modelled from the spec: `getMajorityVote` of classificationEnsemble
(exercised by src/unnamed/part_003 lines 4-13); the implementation file
is not under src. Tallies names by exact case-sensitive equality, takes
the first-encountered name of highest count, and reports the count of
that name over the total as agreement. Empty input is undefined
behaviour per spec 7 and is mapped to none. -/
def getMajorityVote : List IdentificationCandidate → Option EnsembleVote
  | [] => none
  | c :: cs =>
    some { consensus := (candidateNames (c :: cs)).foldl
             (pickMax (fun n => (candidateNames (c :: cs)).count n)) c.name,
           agreement := ((candidateNames (c :: cs)).count
               ((candidateNames (c :: cs)).foldl
                 (pickMax (fun n => (candidateNames (c :: cs)).count n)) c.name) : ℚ)
             / ((candidateNames (c :: cs)).length : ℚ) }

/-! ## Classification metrics (modelled from the spec) -/

/-- Precision, recall and F1 bundle. -/
structure Metrics where
  precision : ℚ
  «recall» : ℚ
  f1 : ℚ
deriving DecidableEq

/-- Modelled from the spec: `calculateMetrics` of classificationEnsemble
(exercised by src/unnamed/part_003 lines 15-22); the implementation file
is not under src. Standard precision, recall and F1 over paired boolean
prediction/actual lists. -/
def calculateMetrics (predictions actual : List Bool) : Metrics :=
  let pairs := predictions.zip actual
  let tp : ℚ := ((pairs.filter (fun p => p.1 && p.2)).length : ℚ)
  let fp : ℚ := ((pairs.filter (fun p => p.1 && !p.2)).length : ℚ)
  let fn : ℚ := ((pairs.filter (fun p => !p.1 && p.2)).length : ℚ)
  let precision := tp / (tp + fp)
  let recallV := tp / (tp + fn)
  { precision := precision, «recall» := recallV,
    f1 := 2 * precision * recallV / (precision + recallV) }

/-! ## Nutrition content validator (modelled from the spec) -/

/-- Health hint entry of a nutrition record. -/
structure HealthHint where
  label : String
  desc : String
deriving DecidableEq

/-- Vitamins and minerals free-text fields. -/
structure Nutrients where
  vitamins : String
  minerals : String
deriving DecidableEq

/-- Structured nutrition record produced by the LLM collaborator. -/
structure NutritionRecord where
  nutrients : Nutrients
  healthHints : List HealthHint
  specificUsage : String
deriving DecidableEq

/-- True when some free-text leaf field of the record matches a generic
filler pattern (same detector family as the scorer). -/
def hasGenericLeaf (r : NutritionRecord) : Bool :=
  detectHallucination r.nutrients.vitamins
    || detectHallucination r.nutrients.minerals
    || r.healthHints.any (fun h => detectHallucination h.desc)
    || detectHallucination r.specificUsage

/-- Modelled from the spec: `validateNutritionAI` (exercised by
src/unnamed/part_004 lines 3-20); the implementation file is not under
src. Rejects the whole record when any leaf field is generic, otherwise
returns it unchanged. -/
def validateNutritionAI (r : NutritionRecord) : Option NutritionRecord :=
  if hasGenericLeaf r then none else some r

/-- Rejected record of the first test in src/unnamed/part_004: every
field is generic filler. -/
def genericRecordExample : NutritionRecord :=
  { nutrients := { vitamins := "Rich in vitamins", minerals := "Various minerals" },
    healthHints := [{ label := "Good", desc := "Good for health" }],
    specificUsage := "Consult doctor." }

/-- Accepted record of the second test in src/unnamed/part_004: every
field carries specific content. -/
def specificRecordExample : NutritionRecord :=
  { nutrients := { vitamins := "A, C, K", minerals := "Potassium, Magnesium" },
    healthHints := [{ label := "Anti-inflammatory", desc := "Reduces inflammation in tests." }],
    specificUsage := "Boil for 5 minutes." }

/-! ## Thumbnail cache (modelled from the spec) -/

/-- Key-value store state backing the thumbnail cache, newest entry
first. -/
abbrev CacheState := List (String × String)

namespace youtubeThumbnailCache

/-- Modelled from the spec: `set` of youtubeThumbnailCache (exercised by
src/tests/youtubeCache.test.js); the implementation file is not under
src. Stores the pair in front, so a repeated set shadows older entries. -/
def set (c : CacheState) (key url : String) : CacheState :=
  (key, url) :: c

/-- Modelled from the spec: `get` of youtubeThumbnailCache — first match
wins, absent key yields none rather than an error. -/
def get : CacheState → String → Option String
  | [], _ => none
  | (k, u) :: rest, q => if k = q then some u else get rest q

/-- Modelled from the spec: `clear` of youtubeThumbnailCache wipes every
entry. -/
def clear (_ : CacheState) : CacheState := []

end youtubeThumbnailCache

/-! ## Identify-plant handler safety fallback (src/server.js) -/

/-- Safety record shape assembled by the handler; src/server.js line 101
initialises it with isEdible false, empty lists and empty description. -/
structure SafetyData where
  isEdible : Bool
  toxicParts : List String
  safetyWarnings : List String
  description : String
deriving DecidableEq

/-- Default safety record from src/server.js line 101. -/
def defaultSafety : SafetyData :=
  { isEdible := false, toxicParts := [], safetyWarnings := [], description := "" }

/-- Safety record after the catch branch of src/server.js line 112: the
default record with its description overwritten. -/
def fallbackSafety : SafetyData :=
  { defaultSafety with description := "Safety info unavailable." }

/-- Normalised identification result (plantData in src/server.js). -/
structure PlantData where
  plantName : String
  scientificName : String
  probability : ℚ
  apiImage : Option String
deriving DecidableEq

/-- Video entry of the response. -/
structure Video where
  title : String
  channel : String
  link : String
  thumbnail : String
deriving DecidableEq

/-- Response record assembled by src/server.js lines 147-159; the spread
safety fields are grouped under safety. -/
structure PlantResult where
  commonName : String
  scientificName : String
  probability : ℚ
  imageUrl : Option String
  youtubeImage : Option String
  apiImage : Option String
  videos : List Video
  videoContext : String
  safety : SafetyData
deriving DecidableEq

/-- Safety-analysis step of src/server.js lines 100-113: the Gemini call
outcome is the text or a thrown error, and JSON parsing of that text is
an oracle returning none on a parse failure; either failure is caught
and yields the fallback record. -/
def safetyStep (gen : Except Unit String) (parse : String → Option SafetyData) : SafetyData :=
  match gen with
  | Except.error _ => fallbackSafety
  | Except.ok text =>
    match parse text with
    | some d => d
    | none => fallbackSafety

/-- Identify-plant handler of src/server.js lines 83-165 after input
validation, over already-resolved external outcomes: identification
failure yields a 500 error; otherwise the response is assembled from the
plant data, the safety step and the awaited image/video lookups. -/
def identifyPlantHandler (ident : Except Unit PlantData) (gen : Except Unit String)
    (parse : String → Option SafetyData) (wikiImage youtubeImage : Option String)
    (videos : List Video) : Except Nat PlantResult :=
  match ident with
  | Except.error _ => Except.error 500
  | Except.ok pd =>
    let s := safetyStep gen parse
    Except.ok
      { commonName := pd.plantName
        scientificName := pd.scientificName
        probability := pd.probability
        imageUrl := wikiImage
        youtubeImage := youtubeImage
        apiImage := pd.apiImage
        videos := videos
        videoContext := if s.isEdible then "recipes" else "uses"
        safety := s }

/-! ## Claim theorems -/

/-- C1: for every tuple of image layers, each independently null or a
URL, resolveImage returns the first non-null layer in the fixed priority
order wiki, then youtube thumbnail, then provider API image, then user
upload, and returns null exactly when all four layers are null. -/
theorem resolveImage_first_nonnull (w y a u : Option String) :
    (∀ s, w = some s → resolveImage w y a u = some s) ∧
    (w = none → ∀ s, y = some s → resolveImage w y a u = some s) ∧
    (w = none → y = none → ∀ s, a = some s → resolveImage w y a u = some s) ∧
    (w = none → y = none → a = none → resolveImage w y a u = u) ∧
    (resolveImage w y a u = none ↔ w = none ∧ y = none ∧ a = none ∧ u = none) := by
  cases w <;> cases y <;> cases a <;> cases u <;> simp [resolveImage]

/-- Witness for C1 at a concrete tuple: only the youtube layer present. -/
theorem resolveImage_first_nonnull_witness :
    resolveImage none (some ("http://yt.example/t.jpg")) none none
      = some ("http://yt.example/t.jpg") :=
  (resolveImage_first_nonnull none (some ("http://yt.example/t.jpg")) none none).2.1
    rfl ("http://yt.example/t.jpg") rfl

/-- C3: calculateScore (0.9, 1.0, vision) is exactly 95 and
calculateScore (0.8, 0.4, llm) is exactly 60, per base =
round(visionScore * 100), a +5 vision bonus at consistency at least 0.9
and a -20 llm penalty at consistency below 0.5. -/
theorem calculateScore_observed :
    calculateScore (9/10) 1 Modality.vision = 95 ∧
    calculateScore (8/10) (4/10) Modality.llm = 60 := by
  constructor
  · unfold calculateScore
    have hb : baseScore (9/10) = 90 := by
      unfold baseScore
      rw [Int.floor_eq_iff]
      norm_num
    have ha : adjustment 1 Modality.vision = 5 := by
      simp only [adjustment]
      norm_num
    rw [hb, ha]
    decide
  · unfold calculateScore
    have hb : baseScore (8/10) = 80 := by
      unfold baseScore
      rw [Int.floor_eq_iff]
      norm_num
    have ha : adjustment (4/10) Modality.llm = -20 := by
      simp only [adjustment]
      norm_num
    rw [hb, ha]
    decide

/-- C4: calculateScore is a total function that always returns an
integer in [0,100], and it attains both boundary values on extreme
inputs (an out-of-range vision score above one clamps to 100, a negative
one clamps to 0) rather than exceeding them. -/
theorem calculateScore_clamped :
    (∀ (v c : ℚ) (m : Modality),
        0 ≤ calculateScore v c m ∧ calculateScore v c m ≤ 100) ∧
    calculateScore 2 1 Modality.vision = 100 ∧
    calculateScore (-1) 1 Modality.vision = 0 := by
  refine ⟨fun v c m => ⟨le_max_left 0 _, ?_⟩, ?_, ?_⟩
  · exact max_le (by norm_num) (min_le_left 100 _)
  · unfold calculateScore
    have hb : baseScore 2 = 200 := by
      unfold baseScore
      rw [Int.floor_eq_iff]
      norm_num
    have ha : adjustment 1 Modality.vision = 5 := by
      simp only [adjustment]
      norm_num
    rw [hb, ha]
    decide
  · unfold calculateScore
    have hb : baseScore (-1) = -100 := by
      unfold baseScore
      rw [Int.floor_eq_iff]
      norm_num
    have ha : adjustment 1 Modality.vision = 5 := by
      simp only [adjustment]
      norm_num
    rw [hb, ha]
    decide

/-- C7: detectHallucination flags the spec's example sentence, and in
general returns true exactly when some entry of the maintained phrase
list matches the input by case-insensitive substring matching. -/
theorem detectHallucination_characterised :
    detectHallucination ("This plant is rich in vitamins and good for health.") = true ∧
    (∀ t : String, detectHallucination t = true ↔
        ∃ p ∈ hallucinationPhrases, containsCI p t = true) := by
  constructor
  · decide
  · intro t
    simp [detectHallucination, List.any_eq_true]

/-- C9: calculateMetrics on predictions [true,true,false] against actual
[true,false,false] yields precision one half, recall one, and f1 two
thirds, which is within 0.01 of 0.66. -/
theorem calculateMetrics_observed :
    calculateMetrics [true, true, false] [true, false, false]
        = { precision := 1/2, «recall» := 1, f1 := 2/3 } ∧
    |(calculateMetrics [true, true, false] [true, false, false]).f1 - 66/100|
        < 1/100 := by
  have h : calculateMetrics [true, true, false] [true, false, false]
      = { precision := 1/2, «recall» := 1, f1 := 2/3 } := by
    simp only [calculateMetrics, List.zip, List.zipWith, List.filter]
    norm_num
  refine ⟨h, ?_⟩
  rw [h]
  norm_num
  rw [abs_of_pos] <;> norm_num

/-! ## Voter fold lemmas -/

/-- The argmax fold yields its seed or an element of the list. -/
lemma pickMaxFold_mem (f : String → Nat) (l : List String) (b : String) :
    l.foldl (pickMax f) b = b ∨ l.foldl (pickMax f) b ∈ l := by
  induction l generalizing b with
  | nil => exact Or.inl rfl
  | cons n t ih =>
    rw [List.foldl_cons]
    rcases ih (pickMax f b n) with h | h
    · rw [h]
      unfold pickMax
      split
      · exact Or.inr (List.mem_cons_self n t)
      · exact Or.inl rfl
    · exact Or.inr (List.mem_cons_of_mem n h)

/-- The argmax fold dominates the seed and every element of the list. -/
lemma pickMaxFold_ge (f : String → Nat) (l : List String) (b : String) :
    f b ≤ f (l.foldl (pickMax f) b) ∧ ∀ n ∈ l, f n ≤ f (l.foldl (pickMax f) b) := by
  induction l generalizing b with
  | nil =>
    refine ⟨le_refl _, ?_⟩
    intro n hn
    exact absurd hn (List.not_mem_nil n)
  | cons m t ih =>
    rw [List.foldl_cons]
    obtain ⟨h1, h2⟩ := ih (pickMax f b m)
    have hb : f b ≤ f (pickMax f b m) := by
      unfold pickMax
      split
      · omega
      · exact le_refl _
    have hm : f m ≤ f (pickMax f b m) := by
      unfold pickMax
      split
      · exact le_refl _
      · omega
    refine ⟨le_trans hb h1, ?_⟩
    intro n hn
    rcases List.mem_cons.mp hn with rfl | hn'
    · exact le_trans hm h1
    · exact h2 n hn'

/-- The argmax fold keeps the seed unless a strictly better element
occurs, and in that case everything strictly before the winner's
occurrence tallies strictly lower — the first-encountered tie-break. -/
lemma pickMaxFold_first (f : String → Nat) (l : List String) (b : String) :
    l.foldl (pickMax f) b = b ∨
      ∃ l₁ l₂, l = l₁ ++ l.foldl (pickMax f) b :: l₂ ∧
        f b < f (l.foldl (pickMax f) b) ∧
        ∀ m ∈ l₁, f m < f (l.foldl (pickMax f) b) := by
  induction l generalizing b with
  | nil => exact Or.inl rfl
  | cons n t ih =>
    rw [List.foldl_cons]
    by_cases hc : f n > f b
    · have hp : pickMax f b n = n := by
        unfold pickMax
        exact if_pos hc
      rw [hp]
      rcases ih n with he | ⟨l₁, l₂, heq, hlt, hall⟩
      · rw [he]
        refine Or.inr ⟨[], t, rfl, hc, ?_⟩
        intro m hm
        exact absurd hm (List.not_mem_nil m)
      · refine Or.inr ⟨n :: l₁, l₂, ?_, lt_trans hc hlt, ?_⟩
        · rw [List.cons_append]
          exact congrArg (List.cons n) heq
        · intro m hm
          rcases List.mem_cons.mp hm with rfl | hm'
          · exact hlt
          · exact hall m hm'
    · have hp : pickMax f b n = b := by
        unfold pickMax
        exact if_neg hc
      rw [hp]
      rcases ih b with he | ⟨l₁, l₂, heq, hlt, hall⟩
      · exact Or.inl he
      · refine Or.inr ⟨n :: l₁, l₂, ?_, hlt, ?_⟩
        · rw [List.cons_append]
          exact congrArg (List.cons n) heq
        · intro m hm
          rcases List.mem_cons.mp hm with rfl | hm'
          · exact lt_of_le_of_lt (Nat.le_of_not_lt hc) hlt
          · exact hall m hm'

/-- C2: on every non-empty candidate list the vote succeeds, the
consensus is an input name whose tally is maximal, ties are broken in
favour of the first-encountered name (everything strictly before the
consensus occurrence tallies strictly lower), and agreement is the
consensus tally over the total, lying in [0,1] and equal to 1 on a
single-element input. -/
theorem getMajorityVote_spec (c : IdentificationCandidate) (cs : List IdentificationCandidate) :
    ∃ v : EnsembleVote, getMajorityVote (c :: cs) = some v ∧
      v.consensus ∈ candidateNames (c :: cs) ∧
      (∀ n ∈ candidateNames (c :: cs),
        (candidateNames (c :: cs)).count n ≤ (candidateNames (c :: cs)).count v.consensus) ∧
      (∃ l₁ l₂, candidateNames (c :: cs) = l₁ ++ v.consensus :: l₂ ∧
        ∀ m ∈ l₁,
          (candidateNames (c :: cs)).count m < (candidateNames (c :: cs)).count v.consensus) ∧
      v.agreement = ((candidateNames (c :: cs)).count v.consensus : ℚ)
          / ((candidateNames (c :: cs)).length : ℚ) ∧
      0 ≤ v.agreement ∧ v.agreement ≤ 1 ∧
      (cs = [] → v.agreement = 1) := by
  refine ⟨_, rfl, ?_, ?_, ?_, rfl, ?_, ?_, ?_⟩
  · rcases pickMaxFold_mem (fun n => (candidateNames (c :: cs)).count n)
      (candidateNames (c :: cs)) c.name with h | h
    · rw [h]
      simp [candidateNames]
    · exact h
  · intro n hn
    exact (pickMaxFold_ge (fun n => (candidateNames (c :: cs)).count n)
      (candidateNames (c :: cs)) c.name).2 n hn
  · rcases pickMaxFold_first (fun n => (candidateNames (c :: cs)).count n)
      (candidateNames (c :: cs)) c.name with he | ⟨l₁, l₂, heq, hlt, hall⟩
    · refine ⟨[], candidateNames cs, ?_, ?_⟩
      · rw [he]
        simp [candidateNames]
      · intro m hm
        exact absurd hm (List.not_mem_nil m)
    · exact ⟨l₁, l₂, heq, hall⟩
  · exact div_nonneg (Nat.cast_nonneg _) (Nat.cast_nonneg _)
  · have hlen : 0 < ((candidateNames (c :: cs)).length : ℚ) := by
      have : 0 < (candidateNames (c :: cs)).length := by
        simp [candidateNames]
      exact_mod_cast this
    exact (div_le_one hlen).mpr
      (Nat.cast_le.mpr (List.count_le_length _ _))
  · intro h
    subst h
    simp [candidateNames, pickMax]

/-- Witness for C2 at the test input of src/unnamed/part_003: the vote
succeeds and its consensus is one of the input names. -/
theorem getMajorityVote_spec_witness :
    ∃ v : EnsembleVote,
      getMajorityVote [⟨"Lavandula"⟩, ⟨"Lavandula"⟩, ⟨"Rosmarinus"⟩] = some v ∧
      v.consensus ∈ candidateNames [⟨"Lavandula"⟩, ⟨"Lavandula"⟩, ⟨"Rosmarinus"⟩] := by
  obtain ⟨v, h1, h2, _⟩ :=
    getMajorityVote_spec ⟨"Lavandula"⟩ [⟨"Lavandula"⟩, ⟨"Rosmarinus"⟩]
  exact ⟨v, h1, h2⟩

/-- Monotonicity of the modality-aware adjustment in the consistency
score. -/
lemma adjustment_mono (m : Modality) {c₁ c₂ : ℚ} (h : c₁ ≤ c₂) :
    adjustment c₁ m ≤ adjustment c₂ m := by
  cases m <;> simp only [adjustment] <;> split_ifs with h1 h2 <;> try norm_num
  all_goals linarith

/-- C5: for fixed vision score and modality, calculateScore is monotone
in the consistency score — higher consistency never lowers the score and
lower consistency never raises it. -/
theorem calculateScore_monotone (v : ℚ) (m : Modality) (c₁ c₂ : ℚ) (h : c₁ ≤ c₂) :
    calculateScore v c₁ m ≤ calculateScore v c₂ m := by
  unfold calculateScore
  exact max_le_max (le_refl 0)
    (min_le_min (le_refl 100) (add_le_add_left (adjustment_mono m h) (baseScore v)))

/-- Witness for C5 at concrete llm-modality inputs. -/
theorem calculateScore_monotone_witness :
    calculateScore (1/2) 0 Modality.llm ≤ calculateScore (1/2) 1 Modality.llm :=
  calculateScore_monotone (1/2) Modality.llm 0 1 (by norm_num)

/-- On layers that are absent or carry a nonempty URL, the server-side
three-layer chain finalImage of src/unnamed/part_001 agrees with the
spec chain with no user upload. -/
lemma finalImage_eq_resolveImage (w y a : Option String)
    (hw : w ≠ some ("")) (hy : y ≠ some ("")) (ha : a ≠ some ("")) :
    finalImage w y a = resolveImage w y a none := by
  cases w with
  | none =>
    cases y with
    | none =>
      cases a with
      | none => rfl
      | some s =>
        have : s ≠ "" := fun h => ha (by rw [h])
        simp [finalImage, jsOr, resolveImage, this]
    | some s =>
      have : s ≠ "" := fun h => hy (by rw [h])
      simp [finalImage, jsOr, resolveImage, this]
  | some s =>
    have : s ≠ "" := fun h => hw (by rw [h])
    simp [finalImage, jsOr, resolveImage, this]

/-- C6: validateNutritionAI either rejects the whole record or returns
it unchanged — it rejects exactly when some free-text leaf field
(vitamins, minerals, any health-hint description, or specific usage)
matches a generic filler pattern, and accepts deep-equal otherwise,
never returning a partially modified record. -/
theorem validateNutritionAI_all_or_nothing (r : NutritionRecord) :
    (validateNutritionAI r = none ∨ validateNutritionAI r = some r) ∧
    (hasGenericLeaf r = true → validateNutritionAI r = none) ∧
    (hasGenericLeaf r = false → validateNutritionAI r = some r) := by
  unfold validateNutritionAI
  cases h : hasGenericLeaf r <;> simp [h]

/-- Witness for C6 on the two test records of src/unnamed/part_004: the
all-generic record is rejected and the specific record is returned
unchanged. -/
theorem validateNutritionAI_all_or_nothing_witness :
    validateNutritionAI genericRecordExample = none ∧
    validateNutritionAI specificRecordExample = some specificRecordExample := by
  refine ⟨(validateNutritionAI_all_or_nothing genericRecordExample).2.1 ?_,
    (validateNutritionAI_all_or_nothing specificRecordExample).2.2 ?_⟩ <;> decide

/-- C8: a set followed by a get of the same key returns the stored url
on any prior cache state (hence last-write-wins under the newest-first
lookup), a get of a key never set returns none without error, and after
a clear every key reads none. -/
theorem youtubeThumbnailCache_contract (c : CacheState) (k u : String) :
    youtubeThumbnailCache.get (youtubeThumbnailCache.set c k u) k = some u ∧
    (k ∉ c.map Prod.fst → youtubeThumbnailCache.get c k = none) ∧
    youtubeThumbnailCache.get (youtubeThumbnailCache.clear c) k = none := by
  refine ⟨?_, ?_, rfl⟩
  · simp [youtubeThumbnailCache.set, youtubeThumbnailCache.get]
  · intro hk
    induction c with
    | nil => rfl
    | cons p rest ih =>
      obtain ⟨pk, pu⟩ := p
      have h1 : ¬ pk = k := by
        intro h
        exact hk (by simp [h])
      have h2 : k ∉ rest.map Prod.fst := by
        intro h
        exact hk (by simp [h])
      show (if pk = k then some pu else youtubeThumbnailCache.get rest k) = none
      rw [if_neg h1]
      exact ih h2

/-- Witness for C8 on the test vectors of src/tests/youtubeCache.test.js:
storing key 123 then reading it back, and reading unset key 999. -/
theorem youtubeThumbnailCache_contract_witness :
    youtubeThumbnailCache.get
        (youtubeThumbnailCache.set [] "123" "http://thumb.com") "123"
      = some ("http://thumb.com") ∧
    youtubeThumbnailCache.get [] "999" = none :=
  ⟨(youtubeThumbnailCache_contract [] "123" "http://thumb.com").1,
    (youtubeThumbnailCache_contract [] "999" "u").2.1 (by decide)⟩

/-- Unfolding equation of the handler on a successful identification. -/
lemma identifyPlantHandler_ok (pd : PlantData) (gen : Except Unit String)
    (parse : String → Option SafetyData) (wikiImage youtubeImage : Option String)
    (videos : List Video) :
    identifyPlantHandler (Except.ok pd) gen parse wikiImage youtubeImage videos
      = Except.ok
        { commonName := pd.plantName
          scientificName := pd.scientificName
          probability := pd.probability
          imageUrl := wikiImage
          youtubeImage := youtubeImage
          apiImage := pd.apiImage
          videos := videos
          videoContext := if (safetyStep gen parse).isEdible then "recipes" else "uses"
          safety := safetyStep gen parse } := rfl

/-- C10: when the LLM safety step fails — the generate call throws or
its text fails to parse as JSON — the identify-plant handler still
returns a successful response assembled from the remaining data, whose
safety record is the default with isEdible false and the fixed
description message of src/server.js line 112. -/
theorem identifyPlantHandler_safety_fallback (pd : PlantData) (gen : Except Unit String)
    (parse : String → Option SafetyData) (wikiImage youtubeImage : Option String)
    (videos : List Video)
    (h : gen = Except.error () ∨ ∃ t, gen = Except.ok t ∧ parse t = none) :
    ∃ r : PlantResult,
      identifyPlantHandler (Except.ok pd) gen parse wikiImage youtubeImage videos
          = Except.ok r ∧
      r.safety = fallbackSafety ∧
      r.safety.isEdible = false ∧
      r.safety.description = "Safety info unavailable." := by
  have hs : safetyStep gen parse = fallbackSafety := by
    rcases h with h | ⟨t, ht, hp⟩
    · rw [h]
      rfl
    · rw [ht]
      simp [safetyStep, hp]
  refine ⟨{ commonName := pd.plantName
            scientificName := pd.scientificName
            probability := pd.probability
            imageUrl := wikiImage
            youtubeImage := youtubeImage
            apiImage := pd.apiImage
            videos := videos
            videoContext := "uses"
            safety := fallbackSafety }, ?_, rfl, rfl, rfl⟩
  rw [identifyPlantHandler_ok, hs]
  rfl

/-- Witness for C10 with a throwing generate call on a concrete plant. -/
theorem identifyPlantHandler_safety_fallback_witness :
    ∃ r : PlantResult,
      identifyPlantHandler (Except.ok ⟨"Lavender", "Lavandula", 9/10, none⟩)
          (Except.error ()) (fun _ => none) none none []
        = Except.ok r ∧
      r.safety.description = "Safety info unavailable." := by
  obtain ⟨r, h1, _, _, h4⟩ :=
    identifyPlantHandler_safety_fallback ⟨"Lavender", "Lavandula", 9/10, none⟩
      (Except.error ()) (fun _ => none) none none [] (Or.inl rfl)
  exact ⟨r, h1, h4⟩
